import Mathlib

/-!
Shallow embedding of the khimera plugin validation and registration pipeline.

The definitions below translate, module by module, the Python source:
  khimera/utils/factories.py      (type-constrained containers)
  khimera/components/metadata.py  (MetaData / MetaDataSpec)
  khimera/components/hooks.py     (Hook / HookSpec)
  khimera/components/commands.py  (Command / CommandSpec)
  khimera/components/dependencies.py (PredicateDependency)
  khimera/plugins/declare.py      (PluginModel)
  khimera/plugins/create.py       (Plugin)
  khimera/management/validate.py  (PluginValidator)
  khimera/plugins/register.py     (ConflictResolver, PluginRegistry)

Python exceptions are modelled with the Except monad; emitted warnings are
returned as data.  Runtime classes, annotations and metadata values are
modelled by small closed universes with the subclass relation used by
isinstance and issubclass.
-/

/-- Python exceptions that the translated code can raise. -/
inductive PyError where
  | typeError
  | keyError
  | attributeError
  | valueError
  | indexError
deriving DecidableEq, Repr

/-- Warnings emitted through warnings.warn. -/
inductive PyWarning where
  | userWarning
deriving DecidableEq, Repr

/-- Closed universe of runtime classes appearing in the embedded programs.
emptyCls stands for the class inspect.Parameter.empty (the sentinel used by
inspect for absent annotations), specialFormCls for the type of typing.Any. -/
inductive PyClass where
  | object
  | typeCls
  | intCls
  | boolCls
  | strCls
  | floatCls
  | noneTypeCls
  | specialFormCls
  | emptyCls
deriving DecidableEq, Repr

/-- Method resolution order of each class up to object: the list of classes
c is a subclass of (bool is a subclass of int in Python). -/
def PyClass.supers : PyClass → List PyClass
  | .object => [.object]
  | .typeCls => [.typeCls, .object]
  | .intCls => [.intCls, .object]
  | .boolCls => [.boolCls, .intCls, .object]
  | .strCls => [.strCls, .object]
  | .floatCls => [.floatCls, .object]
  | .noneTypeCls => [.noneTypeCls, .object]
  | .specialFormCls => [.specialFormCls, .object]
  | .emptyCls => [.emptyCls, .object]

/-- issubclass between two classes. -/
def issubclassB (c d : PyClass) : Bool := d ∈ c.supers

/-- A metadata value carried by a MetaData component. -/
inductive PyValue where
  | vInt (n : Int)
  | vBool (b : Bool)
  | vStr (s : String)
  | vNone
deriving DecidableEq, Repr

/-- type() of a metadata value. -/
def PyValue.typeOf : PyValue → PyClass
  | .vInt _ => .intCls
  | .vBool _ => .boolCls
  | .vStr _ => .strCls
  | .vNone => .noneTypeCls

/-- isinstance for metadata values against a class. -/
def isinstanceValue (v : PyValue) (c : PyClass) : Bool :=
  issubclassB v.typeOf c

/-- An annotation object as observed by inspect.signature: the sentinel
inspect.Signature.empty, the literal None, a class, or typing.Any. -/
inductive Ann where
  | empty
  | noneA
  | cls (c : PyClass)
  | anyA
deriving DecidableEq, Repr

/-- type() of an annotation object (inspect.Parameter.empty and classes are
themselves classes, so their type is type). -/
def Ann.classOf : Ann → PyClass
  | .empty => .typeCls
  | .noneA => .noneTypeCls
  | .cls _ => .typeCls
  | .anyA => .specialFormCls

/-- isinstance of an annotation object against a class. -/
def isinstanceAnn (a : Ann) (c : PyClass) : Bool :=
  issubclassB a.classOf c

/-- issubclass(a, c) where the first argument is an annotation object:
raises TypeError unless the annotation is a class (the empty sentinel is the
class inspect.Parameter.empty). -/
def issubclassAnn (a : Ann) (c : PyClass) : Except PyError Bool :=
  match a with
  | .cls c0 => .ok (issubclassB c0 c)
  | .empty => .ok (issubclassB .emptyCls c)
  | .noneA => .error .typeError
  | .anyA => .error .typeError

/-- A declared expected argument type in HookSpec.arg_types: typing.Any or a
class. -/
inductive ExpTy where
  | anyT
  | cls (c : PyClass)
deriving DecidableEq, Repr

/-- The declared return_type of a HookSpec: None, typing.Any, one class, or a
tuple of classes. -/
inductive RetTy where
  | noneR
  | anyR
  | single (c : PyClass)
  | tupleR (cs : List PyClass)
deriving DecidableEq, Repr

/-- Structural description of a Python callable, exactly the data returned by
HookSpec.describe_signature via inspect.signature: positional parameter names
with their annotations in order, keyword-only names, var-positional and
var-keyword flags, and the return annotation. -/
structure PyFunc where
  positional : List (String × Ann)
  keywordOnly : List String
  hasVarPositional : Bool
  hasVarKeyword : Bool
  retAnn : Ann
deriving DecidableEq, Repr

/-- Payload of a plugin component: a metadata value, a hook callable, or a
CLI command (callable plus optional sub-command group). -/
inductive Payload where
  | metadata (value : PyValue)
  | hook (func : PyFunc)
  | command (callable : PyFunc) (group : Option String)
deriving DecidableEq, Repr

/-- A component of a plugin instance (khimera/core/components.py): a name, an
optional description, the back-reference to the owning plugin name (None
until attached), and the subtype payload. -/
structure Component where
  name : String
  description : Option String
  plugin : Option String
  payload : Payload
deriving DecidableEq, Repr

/-- Association-list lookup retaining Python dict semantics (keys unique in
all constructed states, first match returned). -/
def assocFind (d : List (String × α)) (k : String) : Option α :=
  List.lookup k d

/-- key in dict. -/
def containsKey (d : List (String × α)) (k : String) : Bool :=
  (assocFind d k).isSome

/-- dict setitem: replace the value of an existing key in place, otherwise
append the new key at the end (Python dicts are insertion ordered). -/
def assocSet (d : List (String × α)) (k : String) (v : α) : List (String × α) :=
  if containsKey d k then d.map (fun x => if x.1 = k then (x.1, v) else x)
  else d ++ [(k, v)]

/-- dict.pop(key) without default: KeyError when the key is absent. -/
def assocPop (d : List (String × α)) (k : String) : Except PyError (List (String × α)) :=
  if containsKey d k then .ok (d.filter (fun x => x.1 ≠ k)) else .error .keyError

/-- A Python list value assigned into a components mapping: either an actual
ComponentSet instance or a plain built-in list.  TypeConstrainedDict checks
the runtime class of assigned values, so the distinction matters. -/
inductive PyListVal where
  | componentSet (data : List Component)
  | plainList (data : List Component)
deriving DecidableEq, Repr

/-- Setitem of TypeConstrainedDict(str, ComponentSet) from
khimera/utils/factories.py: the assigned value must be an instance of
ComponentSet, otherwise a TypeError is raised; a plain list is rejected. -/
def componentsSetItem (d : List (String × List Component)) (key : String)
    (v : PyListVal) : Except PyError (List (String × List Component)) :=
  match v with
  | .componentSet l => .ok (assocSet d key l)
  | .plainList _ => .error .typeError

/-- Data of a MetaDataSpec (khimera/components/metadata.py): the expected
type of the metadata value. -/
structure MetaDataSpecData where
  valid_type : PyClass
deriving DecidableEq, Repr

/-- MetaDataSpec.validate body: isinstance(contrib.value, self.valid_type). -/
def MetaDataSpecData.validateValue (s : MetaDataSpecData) (v : PyValue) : Bool :=
  isinstanceValue v s.valid_type

/-- Data of a CommandSpec (khimera/components/commands.py). -/
structure CommandSpecData where
  groups : List String
  admits_new_groups : Bool
  admits_top_level : Bool
deriving DecidableEq, Repr

/-- CommandSpec.validate body, acting on comp.group.  Note that the second
test (comp.group not in self.groups) is also reached when the group is None,
and None is never a member of a set of strings. -/
def CommandSpecData.validateGroup (s : CommandSpecData) (group : Option String) : Bool :=
  if group = none && !s.admits_top_level then false
  else if (match group with
           | some g => !s.groups.contains g
           | none => true) && !s.admits_new_groups then false
  else true

/-- Data of a HookSpec (khimera/components/hooks.py): ordered expected
argument names and types, var-args permissiveness flags, and the declared
return type. -/
structure HookSpecData where
  arg_types : List (String × ExpTy)
  allow_var_args : Bool
  allow_var_kwargs : Bool
  return_type : RetTy
deriving DecidableEq, Repr

/-- The loop of HookSpec.check_inputs over zip(expected_types, actual_types):
skip entries whose expected type is Any, otherwise call issubclass on the
actual annotation, returning False on the first failure. -/
def zipSubclassLoop : List (ExpTy × Ann) → Except PyError Bool
  | [] => .ok true
  | (e, a) :: rest =>
    match e with
    | .anyT => zipSubclassLoop rest
    | .cls c => do
      let b ← issubclassAnn a c
      if b then zipSubclassLoop rest else .ok false

/-- HookSpec.check_inputs: unpacking zip(*arg_types.items()) or
zip(*positional) raises ValueError when either is empty; then names are
compared as tuples, then types through the issubclass loop, then the
var-args and var-kwargs flags. -/
def HookSpecData.check_inputs (s : HookSpecData) (positional : List (String × Ann))
    (has_var_positional has_var_keyword : Bool) : Except PyError Bool :=
  if s.arg_types.isEmpty || positional.isEmpty then .error .valueError
  else if s.arg_types.map Prod.fst ≠ positional.map Prod.fst then .ok false
  else do
    let b ← zipSubclassLoop ((s.arg_types.map Prod.snd).zip (positional.map Prod.snd))
    if !b then .ok false
    else if has_var_positional && !s.allow_var_args then .ok false
    else if has_var_keyword && !s.allow_var_kwargs then .ok false
    else .ok true

/-- HookSpec.check_output on the return annotation: Any accepts everything;
None requires the annotation to be None or the empty sentinel; a tuple of
types is used as the second argument of isinstance; otherwise equality of
the annotation object with the declared class. -/
def HookSpecData.check_output (s : HookSpecData) (ra : Ann) : Bool :=
  match s.return_type with
  | .anyR => true
  | .noneR => ra = .noneA || ra = .empty
  | .tupleR cs => cs.any (fun c => isinstanceAnn ra c)
  | .single c => ra = .cls c

/-- HookSpec.validate on the wrapped callable: describe the signature, then
check_inputs and check_output (the Python `and` short-circuits, and
check_output is only evaluated when check_inputs returned True). -/
def HookSpecData.validateFunc (s : HookSpecData) (f : PyFunc) : Except PyError Bool := do
  let b ← s.check_inputs f.positional f.hasVarPositional f.hasVarKeyword
  if b then .ok (s.check_output f.retAnn) else .ok false

/-- Category tag of a field specification, the COMPONENT_TYPE class attribute
binding each FieldSpec subtype to its Component subtype. -/
inductive Category where
  | metaDataC
  | hookC
  | commandC
deriving DecidableEq, Repr

/-- Subtype-specific data of a field specification. -/
inductive FieldKind where
  | metadataK (d : MetaDataSpecData)
  | hookK (d : HookSpecData)
  | commandK (d : CommandSpecData)
deriving DecidableEq, Repr

/-- A FieldSpec of a plugin model (khimera/core/specifications.py): name,
required and unique flags, description, and the subtype data. -/
structure FieldSpec where
  name : String
  required : Bool
  unique : Bool
  description : Option String
  kind : FieldKind
deriving DecidableEq, Repr

/-- COMPONENT_TYPE of a field specification. -/
def FieldSpec.componentType (f : FieldSpec) : Category :=
  match f.kind with
  | .metadataK _ => .metaDataC
  | .hookK _ => .hookC
  | .commandK _ => .commandC

/-- FieldSpec.validate dispatched on the subtype.  Each subtype accesses the
payload attribute it expects (contrib.value, obj.func, comp.group); on a
component of another category that attribute does not exist and Python
raises AttributeError. -/
def FieldSpec.validateComp (f : FieldSpec) (c : Component) : Except PyError Bool :=
  match f.kind, c.payload with
  | .metadataK d, .metadata v => .ok (d.validateValue v)
  | .hookK d, .hook fn => d.validateFunc fn
  | .commandK d, .command _ g => .ok (d.validateGroup g)
  | _, _ => .error .attributeError

/-- Forward declaration of the components mapping of a plugin instance:
field key to ordered ComponentSet. -/
abbrev ComponentsMap := List (String × List Component)

/-- A PredicateDependency (khimera/components/dependencies.py): referenced
field names and the user-supplied predicate receiving one keyword argument
per referenced field, bound to that field's component collection. -/
structure PredicateDependency where
  name : String
  fields : List String
  description : Option String
  predicate : List (String × List Component) → Bool

/-- PredicateDependency.validate body over a components mapping: look every
referenced field up with dict.get (None when absent); if any value is None,
return False without calling the predicate, otherwise call the predicate on
the assignment. -/
def PredicateDependency.validateOn (d : PredicateDependency) (components : ComponentsMap) : Bool :=
  let collected := d.fields.map (fun f => (f, assocFind components f))
  if collected.any (fun x => x.2.isNone) then false
  else d.predicate (collected.map (fun x => (x.1, x.2.getD [])))

/-- A Spec stored in a plugin model: either a field spec or a dependency
spec. -/
inductive Spec where
  | field (f : FieldSpec)
  | dep (d : PredicateDependency)

/-- A PluginModel (khimera/plugins/declare.py): named and versioned maps of
field specs and dependency specs. -/
structure PluginModel where
  name : String
  version : Option String
  fields : List (String × FieldSpec)
  dependencies : List (String × PredicateDependency)

/-- PluginModel.specs: the merged dict of both maps, dependencies second. -/
def PluginModel.get (m : PluginModel) (name : String) : Option Spec :=
  match assocFind m.dependencies name with
  | some d => some (.dep d)
  | none => (assocFind m.fields name).map .field

/-- PluginModel.filter with its four optional criteria; dependency specs are
never considered.  The category criterion compares COMPONENT_TYPE with the
argument by equality. -/
def PluginModel.filter (m : PluginModel) (category : Option Category)
    (uniq : Option Bool) (req : Option Bool)
    (custom : Option (FieldSpec → Bool)) : List (String × FieldSpec) :=
  m.fields.filter (fun x =>
    (match category with | none => true | some c => x.2.componentType = c)
    && (match uniq with | none => true | some u => x.2.unique = u)
    && (match req with | none => true | some r => x.2.required = r)
    && (match custom with | none => true | some f => f x.2))

/-- A Plugin instance (khimera/plugins/create.py): the model it is intended
to satisfy, name, version, and the components mapping. -/
structure Plugin where
  model : PluginModel
  name : String
  version : Option String
  components : ComponentsMap

/-- Plugin.get: components under a key, an empty collection if absent. -/
def Plugin.get (p : Plugin) (key : String) : List Component :=
  (assocFind p.components key).getD []

/-- Plugin.add: lazily create the field collection, raise AttributeError on
a duplicate component name under the key, then append and stamp the plugin
back-reference on the appended component. -/
def Plugin.add (p : Plugin) (key : String) (comp : Component) : Except PyError Plugin :=
  let comps0 := if containsKey p.components key then p.components
                else p.components ++ [(key, [])]
  let cur := (assocFind comps0 key).getD []
  if (cur.map Component.name).contains comp.name then .error .attributeError
  else
    let stamped := { comp with plugin := some p.name }
    .ok { p with components := assocSet comps0 key (cur ++ [stamped]) }

/-- The validator of khimera/management/validate.py: the plugin under
validation together with the five accumulating finding collections. -/
structure PluginValidator where
  plugin : Plugin
  missing : List String
  unknown : List String
  not_unique : List String
  invalid : List (String × List Component)
  deps_unsatisfied : List String

/-- PluginValidator construction: all finding collections start empty. -/
def PluginValidator.init (p : Plugin) : PluginValidator :=
  { plugin := p, missing := [], unknown := [], not_unique := [],
    invalid := [], deps_unsatisfied := [] }

/-- check_required: every required model field absent from the components
mapping is appended to missing. -/
def PluginValidator.check_required (v : PluginValidator) : PluginValidator :=
  let specs := v.plugin.model.filter none none (some true) none
  let found := (specs.map Prod.fst).filter (fun field => !containsKey v.plugin.components field)
  { v with missing := v.missing ++ found }

/-- check_unique: every model field declared unique holding more than one
component in the instance is appended to not_unique. -/
def PluginValidator.check_unique (v : PluginValidator) : PluginValidator :=
  let specs := v.plugin.model.filter none (some true) none none
  let found := (specs.map Prod.fst).filter (fun field => (v.plugin.get field).length > 1)
  { v with not_unique := v.not_unique ++ found }

/-- check_unknown: every instance key absent from the model fields map is
appended to unknown. -/
def PluginValidator.check_unknown (v : PluginValidator) : PluginValidator :=
  let found := (v.plugin.components.map Prod.fst).filter
    (fun field => !containsKey v.plugin.model.fields field)
  { v with unknown := v.unknown ++ found }

/-- spec.validate(item) as invoked by check_rules, where spec is the result
of PluginModel.get: on None, attribute access on None raises AttributeError;
a DependencySpec found under the key expects a plugin and immediately
accesses item.components, which a component does not have. -/
def specValidateComp (s : Option Spec) (c : Component) : Except PyError Bool :=
  match s with
  | none => .error .attributeError
  | some (.field f) => f.validateComp c
  | some (.dep _) => .error .attributeError

/-- The list comprehension of check_rules collecting the components under one
key that fail spec.validate; with an empty collection the spec is never
called. -/
def invalidOfList (s : Option Spec) : List Component → Except PyError (List Component)
  | [] => .ok []
  | c :: rest => do
    let b ← specValidateComp s c
    let tail ← invalidOfList s rest
    .ok (if b then tail else c :: tail)

/-- The loop of check_rules over the components mapping, extending the
invalid dict with nonempty failure lists. -/
def checkRulesLoop (m : PluginModel) (inv : List (String × List Component)) :
    ComponentsMap → Except PyError (List (String × List Component))
  | [] => .ok inv
  | (field, comps) :: rest => do
    let bad ← invalidOfList (m.get field) comps
    let inv1 := if bad.isEmpty then inv else assocSet inv field bad
    checkRulesLoop m inv1 rest

/-- check_rules: for every key of the instance, validate all its components
against the spec looked up in the model. -/
def PluginValidator.check_rules (v : PluginValidator) : Except PyError PluginValidator := do
  let inv ← checkRulesLoop v.plugin.model v.invalid v.plugin.components
  .ok { v with invalid := inv }

/-- check_dependencies: every dependency spec of the model whose validate
returns False on the plugin is appended to deps_unsatisfied. -/
def PluginValidator.check_dependencies (v : PluginValidator) : PluginValidator :=
  let found := (v.plugin.model.dependencies.filter
    (fun x => !x.2.validateOn v.plugin.components)).map Prod.fst
  { v with deps_unsatisfied := v.deps_unsatisfied ++ found }

/-- PluginValidator.validate: run the five checks in order, then reduce the
five finding collections to a single boolean, True exactly when all five are
empty. -/
def PluginValidator.validate (v : PluginValidator) : Except PyError (PluginValidator × Bool) := do
  let v1 := v.check_required
  let v2 := v1.check_unique
  let v3 := v2.check_unknown
  let v4 ← v3.check_rules
  let v5 := v4.check_dependencies
  .ok (v5, v5.missing.isEmpty && v5.unknown.isEmpty && v5.not_unique.isEmpty
        && v5.invalid.isEmpty && v5.deps_unsatisfied.isEmpty)

/-- The loop of extract popping every flagged key from the copied components
mapping. -/
def popKeys (comps : ComponentsMap) : List String → Except PyError ComponentsMap
  | [] => .ok comps
  | k :: rest => do
    let comps1 ← assocPop comps k
    popKeys comps1 rest

/-- The truncation loop of extract: for every not-unique key, read the first
component of the current collection (getitem raises KeyError on a popped
key, indexing raises IndexError on an empty one) and assign the plain
one-element list back through the type-constrained dict setitem. -/
def truncKeys (comps : ComponentsMap) : List String → Except PyError ComponentsMap
  | [] => .ok comps
  | k :: rest => do
    match assocFind comps k with
    | none => .error .keyError
    | some l =>
      match l with
      | [] => .error .indexError
      | x :: _ => do
        let comps1 ← componentsSetItem comps k (.plainList [x])
        truncKeys comps1 rest

/-- PluginValidator.extract: on a deep copy of the plugin instance, pop every
key flagged invalid, pop every key flagged unknown, then truncate every key
flagged not-unique to its first component. -/
def PluginValidator.extract (v : PluginValidator) : Except PyError Plugin := do
  let comps1 ← popKeys v.plugin.components (v.invalid.map Prod.fst)
  let comps2 ← popKeys comps1 v.unknown
  let comps3 ← truncKeys comps2 v.not_unique
  .ok { v.plugin with components := comps3 }

/-- Validation of a plugin through a fresh validator, returning the boolean
outcome only. -/
def runPluginValidation (p : Plugin) : Except PyError Bool :=
  (PluginValidator.init p).validate.map (fun x => x.2)

/-- The conflict resolution strategy of khimera/plugins/register.py, selected
by a mode label. -/
structure ConflictResolver where
  mode : String

/-- Outcome of ConflictResolver.resolve: the element to register (if any)
together with the warnings emitted, or the raised exception.  The MODES
lookup raises KeyError on an unknown mode label. -/
def ConflictResolver.resolve (r : ConflictResolver) (new : Plugin) :
    Except PyError (Option Plugin × List PyWarning) :=
  if r.mode = "RAISE_ERROR" then .error .valueError
  else if r.mode = "OVERRIDE" then .ok (some new, [.userWarning])
  else if r.mode = "IGNORE" then .ok (none, [.userWarning])
  else .error .keyError

/-- The plugin registry state (khimera/plugins/register.py): resolver,
auto-enable flag, registered plugins by name, enabled plugin names, and the
pooled components by field key. -/
structure PluginRegistry where
  resolver : ConflictResolver
  enable_by_default : Bool
  plugins : List (String × Plugin)
  enabled : List String
  components : ComponentsMap

/-- Result of one registry call: the registry state when the call returns or
the exception escapes (mutations performed before a raise persist), the
raised exception if any, and the warnings emitted during the call. -/
structure RegOutcome where
  state : PluginRegistry
  raised : Option PyError
  warnings : List PyWarning

/-- PluginRegistry.enable: AttributeError when the name is not registered,
otherwise append it to enabled unless already present. -/
def PluginRegistry.enable (r : PluginRegistry) (name : String) :
    Except PyError PluginRegistry :=
  if !containsKey r.plugins name then .error .attributeError
  else if r.enabled.contains name then .ok r
  else .ok { r with enabled := r.enabled ++ [name] }

/-- PluginRegistry.disable: remove the name from enabled if present
(list.remove removes the first occurrence), otherwise do nothing. -/
def PluginRegistry.disable (r : PluginRegistry) (name : String) : PluginRegistry :=
  if r.enabled.contains name then { r with enabled := r.enabled.erase name }
  else r

/-- The loop of PluginRegistry.unpack over the components of a plugin: create
the pool collection of the key when absent (assigning a fresh ComponentSet),
then extend it with the components of the plugin under that key. -/
def unpackInto (pool : ComponentsMap) : ComponentsMap → ComponentsMap
  | [] => pool
  | (key, comps) :: rest =>
    let pool1 := if containsKey pool key then pool else pool ++ [(key, [])]
    let pool2 := pool1.map (fun x => if x.1 = key then (x.1, x.2 ++ comps) else x)
    unpackInto pool2 rest

/-- PluginRegistry.unpack. -/
def PluginRegistry.unpack (r : PluginRegistry) (plugin : Plugin) : PluginRegistry :=
  { r with components := unpackInto r.components plugin.components }

/-- The accepting path of register: store the plugin under its name, unpack
its components into the pool, then enable it when the registry auto-enables
(the plugin was just stored, so enable cannot raise, but the call is kept
fault-faithful). -/
def PluginRegistry.commit (r : PluginRegistry) (plugin : Plugin)
    (warns : List PyWarning) : RegOutcome :=
  let r1 := { r with plugins := assocSet r.plugins plugin.name plugin }
  let r2 := r1.unpack plugin
  if r2.enable_by_default then
    match r2.enable plugin.name with
    | .ok r3 => { state := r3, raised := none, warnings := warns }
    | .error e => { state := r2, raised := some e, warnings := warns }
  else { state := r2, raised := none, warnings := warns }

/-- PluginRegistry.register, parameterized (as the source is through the
validator_type attribute) by the function producing the boolean outcome of a
fresh validator run on the plugin: an invalid plugin raises ValueError
before any state change; a name collision is routed through the resolver,
which may raise, decline the registration (None), or return the element to
register. -/
def PluginRegistry.register (validatorRun : Plugin → Except PyError Bool)
    (r : PluginRegistry) (plugin : Plugin) : RegOutcome :=
  match validatorRun plugin with
  | .error e => { state := r, raised := some e, warnings := [] }
  | .ok false => { state := r, raised := some .valueError, warnings := [] }
  | .ok true =>
    if containsKey r.plugins plugin.name then
      match r.resolver.resolve plugin with
      | .error e => { state := r, raised := some e, warnings := [] }
      | .ok (none, warns) => { state := r, raised := none, warnings := warns }
      | .ok (some _, warns) => r.commit plugin warns
    else r.commit plugin []

/-- PluginRegistry.get: pooled components under a key (empty when the key is
absent or its pool empty), optionally filtered by component name (a falsy
empty string does not filter), optionally filtered to components whose
owning plugin is enabled (a None back-reference is never enabled). -/
def PluginRegistry.get (r : PluginRegistry) (key : String) (name : Option String)
    (enabled_only : Bool) : List Component :=
  match assocFind r.components key with
  | none => []
  | some comps =>
    if comps.isEmpty then []
    else
      let comps1 := match name with
        | some n => if n = "" then comps else comps.filter (fun c => c.name = n)
        | none => comps
      if enabled_only then
        comps1.filter (fun c => match c.plugin with
          | some p => r.enabled.contains p
          | none => false)
      else comps1

/-- One mutating registry operation, for stating trace invariants. -/
inductive RegistryOp where
  | registerOp (p : Plugin)
  | enableOp (name : String)
  | disableOp (name : String)

/-- Apply one operation to the registry state, keeping the state in which a
raising call leaves the registry. -/
def applyOp (validatorRun : Plugin → Except PyError Bool)
    (r : PluginRegistry) : RegistryOp → PluginRegistry
  | .registerOp p => (r.register validatorRun p).state
  | .enableOp n =>
    match r.enable n with
    | .ok r1 => r1
    | .error _ => r
  | .disableOp n => r.disable n

/-- Run a sequence of registry operations. -/
def runOps (validatorRun : Plugin → Except PyError Bool)
    (r : PluginRegistry) : List RegistryOp → PluginRegistry
  | [] => r
  | op :: rest => runOps validatorRun (applyOp validatorRun r op) rest

/-- The pooled collection of a key (empty when the key is absent). -/
def PluginRegistry.poolOf (r : PluginRegistry) (key : String) : List Component :=
  (assocFind r.components key).getD []

/-- PredicateDependency.validate on a plugin instance (reads the components
mapping of the plugin). -/
def PredicateDependency.validate (d : PredicateDependency) (p : Plugin) : Bool :=
  d.validateOn p.components

/-- Claimed hook-signature admissibility, written from the words of the
specification for comparison with HookSpecData.validateFunc: positional
parameter names and annotated types exactly match the declared ordered
arg_types (a declared Any is unconstrained), var-args presence is admitted
only where the permissiveness flags allow it, and the return annotation
matches the declared return type as the specification describes. -/
def hookValidPerSpec (s : HookSpecData) (f : PyFunc) : Bool :=
  decide (s.arg_types.map Prod.fst = f.positional.map Prod.fst)
  && ((s.arg_types.map Prod.snd).zip (f.positional.map Prod.snd)).all
      (fun ea => match ea.1, ea.2 with
        | .anyT, _ => true
        | .cls c, .cls c0 => c0 = c
        | .cls _, _ => false)
  && (!f.hasVarPositional || s.allow_var_args)
  && (!f.hasVarKeyword || s.allow_var_kwargs)
  && s.check_output f.retAnn

/-- The expected-type test actually performed by the check_inputs loop on one
argument pair: a declared Any is skipped, otherwise the annotation must be a
subclass of the declared class (the empty-annotation sentinel is itself a
class). -/
def expTypeOk : ExpTy → Ann → Bool
  | .anyT, _ => true
  | .cls c, .cls c0 => issubclassB c0 c
  | .cls c, .empty => issubclassB PyClass.emptyCls c
  | .cls _, _ => false

/-- Amended hook-signature admissibility: as hookValidPerSpec but with each
annotated type accepted when it is the declared class or a subclass of it,
which is what the issubclass test of check_inputs computes. -/
def hookValidAmended (s : HookSpecData) (f : PyFunc) : Bool :=
  decide (s.arg_types.map Prod.fst = f.positional.map Prod.fst)
  && ((s.arg_types.map Prod.snd).zip (f.positional.map Prod.snd)).all
      (fun ea => expTypeOk ea.1 ea.2)
  && (!f.hasVarPositional || s.allow_var_args)
  && (!f.hasVarKeyword || s.allow_var_kwargs)
  && s.check_output f.retAnn

/-- Claimed command admissibility, written from the words of the
specification for comparison with CommandSpecData.validateGroup: valid iff
the group is None and top-level commands are admitted, or the group is
non-None and either belongs to the allowed groups or new groups are
admitted. -/
def commandValidPerSpec (s : CommandSpecData) (group : Option String) : Bool :=
  match group with
  | none => s.admits_top_level
  | some g => s.groups.contains g || s.admits_new_groups

/-- Field spec of the scenario model: a required, unique string metadata
field named author. -/
def authorSpec : FieldSpec :=
  { name := "author", required := true, unique := true, description := none,
    kind := .metadataK { valid_type := .strCls } }

/-- Scenario model declaring only the author field. -/
def authorModel : PluginModel :=
  { name := "host_model", version := none, fields := [("author", authorSpec)],
    dependencies := [] }

/-- Scenario plugin instance omitting the author field entirely. -/
def pluginNoAuthor : Plugin :=
  { model := authorModel, name := "bare_plugin", version := none, components := [] }

/-- A model declaring no fields and no dependencies. -/
def emptyModel : PluginModel :=
  { name := "empty_model", version := none, fields := [], dependencies := [] }

/-- A metadata component providing a string value. -/
def strComp : Component :=
  { name := "c0", description := none, plugin := some "stray_plugin",
    payload := .metadata (.vStr "x") }

/-- A plugin whose components mapping holds a field key not declared in its
model. -/
def pluginUndeclaredKey : Plugin :=
  { model := emptyModel, name := "stray_plugin", version := none,
    components := [("extra", [strComp])] }

/-- Field spec declared unique, expecting string metadata. -/
def uniqueFieldSpec : FieldSpec :=
  { name := "f", required := false, unique := true, description := none,
    kind := .metadataK { valid_type := .strCls } }

/-- Model declaring the unique field f. -/
def uniqueFieldModel : PluginModel :=
  { name := "unique_model", version := none, fields := [("f", uniqueFieldSpec)],
    dependencies := [] }

/-- First valid component under f. -/
def fCompFirst : Component :=
  { name := "first", description := none, plugin := some "dup_plugin",
    payload := .metadata (.vStr "one") }

/-- Second valid component under f. -/
def fCompSecond : Component :=
  { name := "second", description := none, plugin := some "dup_plugin",
    payload := .metadata (.vStr "two") }

/-- A plugin holding two valid components under the unique field f. -/
def pluginTwoUnderUnique : Plugin :=
  { model := uniqueFieldModel, name := "dup_plugin", version := none,
    components := [("f", [fCompFirst, fCompSecond])] }

/-- Command spec admitting top-level commands but no new groups, with no
allowed groups declared. -/
def topLevelOnlyCmdSpec : CommandSpecData :=
  { groups := [], admits_new_groups := false, admits_top_level := true }

/-- Hook spec declaring one int argument and no return type. -/
def intArgHookSpec : HookSpecData :=
  { arg_types := [("x", .cls .intCls)], allow_var_args := false,
    allow_var_kwargs := false, return_type := .noneR }

/-- A callable with the single parameter x annotated bool and no return
annotation. -/
def boolArgFunc : PyFunc :=
  { positional := [("x", .cls .boolCls)], keywordOnly := [],
    hasVarPositional := false, hasVarKeyword := false, retAnn := .empty }

/-- Hook spec of the swapped-parameters scenario: parameters name then
value, returning bool. -/
def nameValueHookSpec : HookSpecData :=
  { arg_types := [("name", .cls .strCls), ("value", .cls .intCls)],
    allow_var_args := false, allow_var_kwargs := false,
    return_type := .single .boolCls }

/-- The swapped callable of the scenario: parameters value then name. -/
def swappedFunc : PyFunc :=
  { positional := [("value", .cls .intCls), ("name", .cls .strCls)],
    keywordOnly := [], hasVarPositional := false, hasVarKeyword := false,
    retAnn := .cls .boolCls }

/-- First plugin named p1 (version 1, no components, trivial model). -/
def pluginP1v1 : Plugin :=
  { model := emptyModel, name := "p1", version := some "1", components := [] }

/-- Second plugin named p1 (version 2). -/
def pluginP1v2 : Plugin :=
  { model := emptyModel, name := "p1", version := some "2", components := [] }

/-- A fresh registry whose conflict resolver mode is OVERRIDE. -/
def overrideRegistry : PluginRegistry :=
  { resolver := { mode := "OVERRIDE" }, enable_by_default := true,
    plugins := [], enabled := [], components := [] }

/-- A fresh registry with the default RAISE_ERROR resolver. -/
def defaultRegistry : PluginRegistry :=
  { resolver := { mode := "RAISE_ERROR" }, enable_by_default := true,
    plugins := [], enabled := [], components := [] }

/-- The hook-and-asset predicate of the dependency scenario: a hook is
provided exactly when an asset is. -/
def hookAssetPredicate (asg : List (String × List Component)) : Bool :=
  decide ((List.lookup "hook" asg).getD [] ≠ []) == decide ((List.lookup "asset" asg).getD [] ≠ [])

/-- The dependency spec of the scenario, referencing the fields hook and
asset. -/
def hookAssetDep : PredicateDependency :=
  { name := "hook_asset", fields := ["hook", "asset"], description := none,
    predicate := hookAssetPredicate }

/-- A hook component. -/
def aHookComp : Component :=
  { name := "h", description := none, plugin := some "dep_plugin",
    payload := .hook boolArgFunc }

/-- A plugin providing only the hook field, with the asset key entirely
absent. -/
def pluginHookOnly : Plugin :=
  { model := emptyModel, name := "dep_plugin", version := none,
    components := [("hook", [aHookComp])] }

/-- A trivial callable payload for command components. -/
def trivialFunc : PyFunc :=
  { positional := [("x", .cls .intCls)], keywordOnly := [],
    hasVarPositional := false, hasVarKeyword := false, retAnn := .empty }

/-- Command field spec admitting the setup group. -/
def cmdsFieldSpec : FieldSpec :=
  { name := "cmds", required := false, unique := false, description := none,
    kind := .commandK { groups := ["setup"], admits_new_groups := true,
                        admits_top_level := true } }

/-- Model declaring the cmds command field. -/
def cmdsModel : PluginModel :=
  { name := "cmds_model", version := none, fields := [("cmds", cmdsFieldSpec)],
    dependencies := [] }

/-- Command component of the first p1 plugin. -/
def cmdCompA : Component :=
  { name := "ca", description := none, plugin := some "p1",
    payload := .command trivialFunc (some "setup") }

/-- Command component of the replacement p1 plugin. -/
def cmdCompB : Component :=
  { name := "cb", description := none, plugin := some "p1",
    payload := .command trivialFunc (some "setup") }

/-- First p1 plugin contributing one command. -/
def pluginPA : Plugin :=
  { model := cmdsModel, name := "p1", version := some "1",
    components := [("cmds", [cmdCompA])] }

/-- Replacement p1 plugin contributing another command. -/
def pluginPB : Plugin :=
  { model := cmdsModel, name := "p1", version := some "2",
    components := [("cmds", [cmdCompB])] }

/-- Registry state after registering the first p1 plugin in the OVERRIDE
registry. -/
def regAfterA : PluginRegistry :=
  (overrideRegistry.register runPluginValidation pluginPA).state

/-- Registry state after registering the first p1 plugin (no components) in
the OVERRIDE registry. -/
def regAfterFirstP1 : PluginRegistry :=
  (overrideRegistry.register runPluginValidation pluginP1v1).state

/-- The validator state produced by running validation on the plugin that
omits the author field. -/
def noAuthorFindings : PluginValidator :=
  { plugin := pluginNoAuthor, missing := ["author"], unknown := [],
    not_unique := [], invalid := [], deps_unsatisfied := [] }

theorem list_isEmpty_iff_nil (l : List α) : l.isEmpty = true ↔ l = [] := by
  cases l <;> simp

theorem assocFind_nil (k : String) : assocFind ([] : List (String × α)) k = none := rfl

theorem assocFind_cons (a : String) (b : α) (tl : List (String × α)) (k : String) :
    assocFind ((a, b) :: tl) k = if k = a then some b else assocFind tl k := by
  simp [assocFind, List.lookup]
  split <;> rename_i h <;> simp_all

theorem assocFind_append (l1 l2 : List (String × α)) (k : String) :
    assocFind (l1 ++ l2) k = ((assocFind l1 k).map some).getD (assocFind l2 k) := by
  induction l1 with
  | nil => simp [assocFind_nil]
  | cons hd tl ih =>
    obtain ⟨a, b⟩ := hd
    by_cases h : k = a <;> simp [assocFind_cons, h, ih]

theorem assocFind_eq_none_of_not_containsKey {l : List (String × α)} {k : String}
    (h : containsKey l k = false) : assocFind l k = none := by
  unfold containsKey at h
  cases hf : assocFind l k with
  | none => rfl
  | some v => rw [hf] at h; simp at h

theorem assocFind_map_bump (pool : List (String × List Component)) (k key : String)
    (cs : List Component) :
    assocFind (pool.map (fun x => if x.1 = k then (x.1, x.2 ++ cs) else x)) key
      = if key = k then (assocFind pool key).map (fun l => l ++ cs) else assocFind pool key := by
  induction pool with
  | nil => simp [assocFind_nil]
  | cons hd tl ih =>
    obtain ⟨a, b⟩ := hd
    by_cases hak : a = k
    · subst hak
      by_cases hka : key = a <;> simp [assocFind_cons, hka, ih]
    · by_cases hka : key = a
      · subst hka
        simp [assocFind_cons, hak]
      · simp [assocFind_cons, hak, hka, ih]

theorem assocFind_map_set (d : List (String × α)) (k key : String) (v : α) :
    assocFind (d.map (fun x => if x.1 = k then (x.1, v) else x)) key
      = if key = k then (assocFind d key).map (fun _ => v) else assocFind d key := by
  induction d with
  | nil => simp [assocFind_nil]
  | cons hd tl ih =>
    obtain ⟨a, b⟩ := hd
    by_cases hak : a = k
    · subst hak
      by_cases hka : key = a <;> simp [assocFind_cons, hka, ih]
    · by_cases hka : key = a
      · subst hka
        simp [assocFind_cons, hak]
      · simp [assocFind_cons, hak, hka, ih]

theorem assocFind_assocSet_self (d : List (String × α)) (k : String) (v : α) :
    assocFind (assocSet d k v) k = some v := by
  unfold assocSet
  by_cases h : containsKey d k
  · rw [if_pos h, assocFind_map_set, if_pos rfl]
    unfold containsKey at h
    cases hf : assocFind d k with
    | none => rw [hf] at h; simp at h
    | some w => simp
  · rw [if_neg h, assocFind_append]
    rw [assocFind_eq_none_of_not_containsKey (by simpa using h)]
    simp [assocFind_cons]

theorem assocFind_assocSet_ne (d : List (String × α)) (k key : String) (v : α)
    (h : key ≠ k) : assocFind (assocSet d k v) key = assocFind d key := by
  unfold assocSet
  by_cases hc : containsKey d k
  · rw [if_pos hc, assocFind_map_set, if_neg h]
  · rw [if_neg hc, assocFind_append]
    simp [assocFind_cons, h]
    cases assocFind d key <;> simp [assocFind_nil]

theorem containsKey_assocSet_self (d : List (String × α)) (k : String) (v : α) :
    containsKey (assocSet d k v) k = true := by
  unfold containsKey
  rw [assocFind_assocSet_self]
  rfl

theorem poolLookup_unpack_step (pool : ComponentsMap) (k : String) (cs : List Component)
    (key : String) :
    assocFind ((if containsKey pool k then pool else pool ++ [(k, [])]).map
        (fun x => if x.1 = k then (x.1, x.2 ++ cs) else x)) key
      = if key = k then some ((assocFind pool k).getD [] ++ cs) else assocFind pool key := by
  rw [assocFind_map_bump]
  by_cases hkk : key = k
  · subst hkk
    by_cases hc : containsKey pool key
    · rw [if_pos hc, if_pos rfl, if_pos rfl]
      unfold containsKey at hc
      cases hf : assocFind pool key with
      | none => rw [hf] at hc; simp at hc
      | some w => simp
    · rw [if_neg hc, if_pos rfl, if_pos rfl, assocFind_append]
      rw [assocFind_eq_none_of_not_containsKey (by simpa using hc)]
      simp [assocFind_cons, assocFind_eq_none_of_not_containsKey (by simpa using hc)]
  · rw [if_neg hkk, if_neg hkk]
    by_cases hc : containsKey pool k
    · rw [if_pos hc]
    · rw [if_neg hc, assocFind_append]
      simp [assocFind_cons, hkk]
      cases assocFind pool key <;> simp [assocFind_nil]

theorem unpackInto_extends (l : ComponentsMap) (pool : ComponentsMap) (key : String) :
    (assocFind pool key).getD [] <+: (assocFind (unpackInto pool l) key).getD [] := by
  induction l generalizing pool with
  | nil => exact List.prefix_rfl
  | cons hd tl ih =>
    obtain ⟨k, cs⟩ := hd
    refine List.IsPrefix.trans ?_ (ih _)
    show (assocFind pool key).getD [] <+: (assocFind ((if containsKey pool k then pool
      else pool ++ [(k, [])]).map (fun x => if x.1 = k then (x.1, x.2 ++ cs) else x)) key).getD []
    rw [poolLookup_unpack_step]
    by_cases hkk : key = k
    · subst hkk
      simp
    · rw [if_neg hkk]

theorem unpackInto_unchanged (l : ComponentsMap) (pool : ComponentsMap) (key : String)
    (h : key ∉ l.map Prod.fst) :
    assocFind (unpackInto pool l) key = assocFind pool key := by
  induction l generalizing pool with
  | nil => rfl
  | cons hd tl ih =>
    obtain ⟨k, cs⟩ := hd
    rw [List.map_cons] at h
    have hk : key ≠ k := fun hkk => h (hkk ▸ List.mem_cons_self _ _)
    have htl : key ∉ tl.map Prod.fst := fun hm => h (List.mem_cons_of_mem _ hm)
    show assocFind (unpackInto ((if containsKey pool k then pool
      else pool ++ [(k, [])]).map (fun x => if x.1 = k then (x.1, x.2 ++ cs) else x)) tl) key
      = assocFind pool key
    rw [ih _ htl, poolLookup_unpack_step, if_neg hk]

theorem unpackInto_poolLookup_eq (l : ComponentsMap) (pool : ComponentsMap) (key : String)
    (hnd : (l.map Prod.fst).Nodup) :
    (assocFind (unpackInto pool l) key).getD []
      = (assocFind pool key).getD [] ++ (assocFind l key).getD [] := by
  induction l generalizing pool with
  | nil => simp [unpackInto, assocFind_nil]
  | cons hd tl ih =>
    obtain ⟨k, cs⟩ := hd
    rw [List.map_cons, List.nodup_cons] at hnd
    obtain ⟨hk, htl⟩ := hnd
    show (assocFind (unpackInto ((if containsKey pool k then pool
      else pool ++ [(k, [])]).map (fun x => if x.1 = k then (x.1, x.2 ++ cs) else x)) tl) key).getD []
      = (assocFind pool key).getD [] ++ (assocFind ((k, cs) :: tl) key).getD []
    by_cases hkk : key = k
    · subst hkk
      rw [unpackInto_unchanged tl _ key hk, poolLookup_unpack_step, if_pos rfl]
      simp [assocFind_cons]
    · rw [ih _ htl, poolLookup_unpack_step, if_neg hkk, assocFind_cons, if_neg hkk]

theorem contains_iff_mem (l : List String) (n : String) : l.contains n = true ↔ n ∈ l := by
  simp

theorem enable_ok_components {r r1 : PluginRegistry} {n : String}
    (h : r.enable n = .ok r1) : r1.components = r.components := by
  unfold PluginRegistry.enable at h
  split at h
  · cases h
  · split at h <;> (cases h; rfl)

theorem enable_ok_mem {r r1 : PluginRegistry} {n : String}
    (h : r.enable n = .ok r1) : n ∈ r1.enabled := by
  unfold PluginRegistry.enable at h
  split at h
  · cases h
  · rename_i hctn
    split at h
    · rename_i hmem
      cases h
      exact (contains_iff_mem _ _).mp hmem
    · cases h
      simp

theorem state_components_after_enable (r2 : PluginRegistry) (n : String)
    (warns : List PyWarning) :
    (match r2.enable n with
     | .ok r3 => ({ state := r3, raised := none, warnings := warns } : RegOutcome)
     | .error e => { state := r2, raised := some e, warnings := warns }).state.components
      = r2.components := by
  cases he : r2.enable n with
  | ok r3 => exact enable_ok_components he
  | error e => rfl

theorem state_enabled_after_enable (r2 : PluginRegistry) (n : String)
    (warns : List PyWarning) (hck : containsKey r2.plugins n = true) :
    n ∈ (match r2.enable n with
     | .ok r3 => ({ state := r3, raised := none, warnings := warns } : RegOutcome)
     | .error e => { state := r2, raised := some e, warnings := warns }).state.enabled := by
  cases he : r2.enable n with
  | ok r3 => exact enable_ok_mem he
  | error e =>
    exfalso
    unfold PluginRegistry.enable at he
    rw [if_neg (by simp [hck])] at he
    split at he <;> cases he

theorem commit_components (r : PluginRegistry) (p : Plugin) (warns : List PyWarning) :
    (r.commit p warns).state.components = unpackInto r.components p.components := by
  unfold PluginRegistry.commit PluginRegistry.unpack
  dsimp only
  split
  · rw [state_components_after_enable]
  · rfl

theorem commit_enabled_mem (r : PluginRegistry) (p : Plugin) (warns : List PyWarning)
    (he : r.enable_by_default = true) : p.name ∈ (r.commit p warns).state.enabled := by
  unfold PluginRegistry.commit PluginRegistry.unpack
  dsimp only
  rw [if_pos he]
  exact state_enabled_after_enable _ _ _ (containsKey_assocSet_self _ _ _)

theorem register_state_cases (vr : Plugin → Except PyError Bool) (r : PluginRegistry)
    (p : Plugin) :
    (r.register vr p).state = r
    ∨ (r.register vr p).state.components = unpackInto r.components p.components := by
  unfold PluginRegistry.register
  cases hv : vr p with
  | error e => exact Or.inl rfl
  | ok b =>
    cases b with
    | false => exact Or.inl rfl
    | true =>
      by_cases hc : containsKey r.plugins p.name = true
      · rw [if_pos hc]
        cases hres : ConflictResolver.resolve r.resolver p with
        | error e => exact Or.inl rfl
        | ok pr =>
          obtain ⟨newOpt, warns⟩ := pr
          cases newOpt with
          | none => exact Or.inl rfl
          | some np => exact Or.inr (commit_components r p _)
      · rw [if_neg hc]
        exact Or.inr (commit_components r p _)

theorem applyOp_pool_grows (vr : Plugin → Except PyError Bool) (r : PluginRegistry)
    (op : RegistryOp) (key : String) :
    r.poolOf key <+: (applyOp vr r op).poolOf key := by
  cases op with
  | registerOp p =>
    rcases register_state_cases vr r p with h | h
    · show r.poolOf key <+: ((r.register vr p).state).poolOf key
      rw [h]
    · show r.poolOf key <+: ((r.register vr p).state).poolOf key
      unfold PluginRegistry.poolOf
      rw [h]
      exact unpackInto_extends _ _ _
  | enableOp n =>
    show r.poolOf key <+: (match r.enable n with | .ok r1 => r1 | .error _ => r).poolOf key
    cases he : r.enable n with
    | ok r1 =>
      unfold PluginRegistry.poolOf
      rw [enable_ok_components he]
    | error e => exact List.prefix_rfl
  | disableOp n =>
    show r.poolOf key <+: (r.disable n).poolOf key
    unfold PluginRegistry.disable PluginRegistry.poolOf
    split <;> exact List.prefix_rfl

theorem runOps_pool_grows (vr : Plugin → Except PyError Bool) (r : PluginRegistry)
    (ops : List RegistryOp) (key : String) :
    r.poolOf key <+: (runOps vr r ops).poolOf key := by
  induction ops generalizing r with
  | nil => exact List.prefix_rfl
  | cons op rest ih =>
    exact List.IsPrefix.trans (applyOp_pool_grows vr r op key) (ih _)

theorem register_override_commit (vr : Plugin → Except PyError Bool) (r : PluginRegistry)
    (pb : Plugin) (hmode : r.resolver.mode = "OVERRIDE") (hv : vr pb = .ok true)
    (hc : containsKey r.plugins pb.name = true) :
    r.register vr pb = r.commit pb [.userWarning] := by
  unfold PluginRegistry.register
  rw [hv, if_pos hc]
  unfold ConflictResolver.resolve
  rw [hmode]
  simp

theorem mem_get_of_mem_pool (r : PluginRegistry) (key : String) (c : Component) (n : String)
    (hc : c ∈ r.poolOf key) (hp : c.plugin = some n) (hn : n ∈ r.enabled) :
    c ∈ r.get key none true := by
  unfold PluginRegistry.poolOf at hc
  unfold PluginRegistry.get
  cases hfind : assocFind r.components key with
  | none => rw [hfind] at hc; simp at hc
  | some comps =>
    rw [hfind] at hc
    simp only [Option.getD_some] at hc
    have hE : comps.isEmpty = false := by
      cases comps with
      | nil => simp at hc
      | cons a l => rfl
    dsimp only
    simp only [hE, Bool.false_eq_true, if_false, if_true, List.mem_filter, hp]
    exact ⟨hc, (contains_iff_mem _ _).mpr hn⟩

theorem zipLoop_eq (l : List (ExpTy × Ann))
    (hsafe : ∀ x ∈ l, x.2 ≠ Ann.noneA ∧ x.2 ≠ Ann.anyA) :
    zipSubclassLoop l = .ok (l.all (fun x => expTypeOk x.1 x.2)) := by
  induction l with
  | nil => rfl
  | cons hd tl ih =>
    obtain ⟨e, a⟩ := hd
    have hhd := hsafe (e, a) (List.mem_cons_self _ _)
    have htl : ∀ x ∈ tl, x.2 ≠ Ann.noneA ∧ x.2 ≠ Ann.anyA :=
      fun x hx => hsafe x (List.mem_cons_of_mem _ hx)
    cases e with
    | anyT =>
      simp only [zipSubclassLoop, List.all_cons, expTypeOk, Bool.true_and]
      exact ih htl
    | cls c =>
      cases a with
      | noneA => exact absurd rfl hhd.1
      | anyA => exact absurd rfl hhd.2
      | cls c0 =>
        simp only [zipSubclassLoop, issubclassAnn, List.all_cons, expTypeOk]
        cases hb : issubclassB c0 c
        · simp [Bind.bind, Except.bind, hb]
        · simp [Bind.bind, Except.bind, hb, ih htl]
          rfl
      | empty =>
        simp only [zipSubclassLoop, issubclassAnn, List.all_cons, expTypeOk]
        cases hb : issubclassB PyClass.emptyCls c
        · simp [Bind.bind, Except.bind, hb]
        · simp [Bind.bind, Except.bind, hb, ih htl]
          rfl

theorem check_inputs_eq (s : HookSpecData) (f : PyFunc)
    (h1 : s.arg_types ≠ []) (h2 : f.positional ≠ [])
    (h3 : ∀ x ∈ f.positional, x.2 ≠ Ann.noneA ∧ x.2 ≠ Ann.anyA) :
    s.check_inputs f.positional f.hasVarPositional f.hasVarKeyword
      = .ok (decide (s.arg_types.map Prod.fst = f.positional.map Prod.fst)
          && ((s.arg_types.map Prod.snd).zip (f.positional.map Prod.snd)).all
              (fun x => expTypeOk x.1 x.2)
          && (!f.hasVarPositional || s.allow_var_args)
          && (!f.hasVarKeyword || s.allow_var_kwargs)) := by
  unfold HookSpecData.check_inputs
  rw [if_neg (by simp [List.isEmpty_iff, h1, h2])]
  by_cases hn : s.arg_types.map Prod.fst = f.positional.map Prod.fst
  · rw [if_neg (not_not_intro hn)]
    have hsafe : ∀ x ∈ (s.arg_types.map Prod.snd).zip (f.positional.map Prod.snd),
        x.2 ≠ Ann.noneA ∧ x.2 ≠ Ann.anyA := by
      intro x hx
      have hx2 := (List.of_mem_zip hx).2
      rw [List.mem_map] at hx2
      obtain ⟨y, hy, hyx⟩ := hx2
      rw [← hyx]
      exact h3 y hy
    rw [zipLoop_eq _ hsafe]
    simp only [Bind.bind, Except.bind, decide_eq_true_eq]
    cases hall : ((s.arg_types.map Prod.snd).zip (f.positional.map Prod.snd)).all
        (fun x => expTypeOk x.1 x.2) <;>
      cases f.hasVarPositional <;> cases s.allow_var_args <;>
      cases f.hasVarKeyword <;> cases s.allow_var_kwargs <;> simp [hn]
  · rw [if_pos hn]
    simp [hn]

/-- C1: for every plugin instance and its model, PluginValidator.validate
runs the five checks and, whenever it returns, the returned boolean is True
exactly when all five finding collections (missing, unknown, not_unique,
invalid, deps_unsatisfied) are empty after the run. -/
theorem khimera_validate_true_iff_all_findings_empty (p : Plugin) (v : PluginValidator)
    (b : Bool) (h : (PluginValidator.init p).validate = .ok (v, b)) :
    b = true ↔ (v.missing = [] ∧ v.unknown = [] ∧ v.not_unique = [] ∧ v.invalid = []
      ∧ v.deps_unsatisfied = []) := by
  unfold PluginValidator.validate at h
  simp only [Bind.bind] at h
  cases hcr : ((PluginValidator.init p).check_required.check_unique.check_unknown).check_rules with
  | error e =>
    rw [hcr] at h
    simp [Except.bind] at h
  | ok v4 =>
    rw [hcr] at h
    simp only [Except.bind, pure, Except.pure, Except.ok.injEq, Prod.mk.injEq] at h
    obtain ⟨hv, hb⟩ := h
    subst hv
    subst hb
    simp [list_isEmpty_iff_nil, and_assoc]

/-- Witness for C1 at the plugin omitting its required author field: the run
returns normally with result False and the missing collection nonempty. -/
theorem khimera_validate_true_iff_all_findings_empty_witness :
    (PluginValidator.init pluginNoAuthor).validate = .ok (noAuthorFindings, false)
    ∧ (false = true ↔ (noAuthorFindings.missing = [] ∧ noAuthorFindings.unknown = []
        ∧ noAuthorFindings.not_unique = [] ∧ noAuthorFindings.invalid = []
        ∧ noAuthorFindings.deps_unsatisfied = [])) :=
  ⟨rfl, khimera_validate_true_iff_all_findings_empty pluginNoAuthor noAuthorFindings false rfl⟩

/-- C2: the claim that validation never raises fails on the code: on a plugin
whose components mapping holds a key not declared in the model, check_rules
looks the key up in the model, obtains None, and calling validate on None
raises AttributeError, so PluginValidator.validate propagates an exception
instead of recording the unknown key as a finding. -/
theorem khimera_validate_raises_attribute_error_on_undeclared_key :
    (PluginValidator.init pluginUndeclaredKey).validate = .error .attributeError := rfl

/-- C3: whenever the validator run on a plugin returns False, register raises
ValueError and performs no state change: the resulting registry state equals
the input state and no warning is emitted. -/
theorem khimera_register_invalid_plugin_raises_value_error_without_state_change
    (validatorRun : Plugin → Except PyError Bool) (r : PluginRegistry) (p : Plugin)
    (h : validatorRun p = .ok false) :
    (r.register validatorRun p).state = r
    ∧ (r.register validatorRun p).raised = some .valueError
    ∧ (r.register validatorRun p).warnings = [] := by
  unfold PluginRegistry.register
  rw [h]
  exact ⟨rfl, rfl, rfl⟩

/-- Witness for C3: the plugin omitting its required author field is found
invalid, and registering it into a fresh registry raises ValueError and
leaves the registry untouched. -/
theorem khimera_register_invalid_plugin_raises_value_error_without_state_change_witness :
    runPluginValidation pluginNoAuthor = .ok false
    ∧ (defaultRegistry.register runPluginValidation pluginNoAuthor).state = defaultRegistry
    ∧ (defaultRegistry.register runPluginValidation pluginNoAuthor).raised
        = some .valueError :=
  ⟨rfl,
    (khimera_register_invalid_plugin_raises_value_error_without_state_change
      runPluginValidation defaultRegistry pluginNoAuthor rfl).1,
    (khimera_register_invalid_plugin_raises_value_error_without_state_change
      runPluginValidation defaultRegistry pluginNoAuthor rfl).2.1⟩

/-- C4: the claimed extract behavior fails on the code: on a plugin holding
two valid components under a unique field, the validator run flags the field
not-unique and returns False, and extract then raises TypeError, because the
truncated one-element collection is rebuilt as a plain list and the
type-constrained components dict rejects values that are not ComponentSet
instances. -/
theorem khimera_extract_raises_type_error_on_not_unique_key :
    ((PluginValidator.init pluginTwoUnderUnique).validate).map (fun x => (x.2, x.1.not_unique))
      = .ok (false, ["f"])
    ∧ (((PluginValidator.init pluginTwoUnderUnique).validate) >>= fun x => x.1.extract)
      = .error .typeError := ⟨rfl, rfl⟩

/-- C5: on the model declaring a required unique string metadata field author
and an instance omitting it, check_required records missing equal to the
one-element list author, and validate returns False. -/
theorem khimera_check_required_missing_author_scenario :
    (PluginValidator.init pluginNoAuthor).check_required.missing = ["author"]
    ∧ ((PluginValidator.init pluginNoAuthor).validate).map (fun x => x.2) = .ok false :=
  ⟨rfl, rfl⟩

/-- C6 counterexample: the claim that HookSpec.validate demands exact type
equality fails on the code: a spec declaring one int parameter accepts a
callable annotating that parameter bool, since check_inputs tests issubclass
rather than equality, although the spec-worded exact-match predicate rejects
it. -/
theorem khimera_hook_validate_exact_type_match_counterexample :
    intArgHookSpec.validateFunc boolArgFunc = .ok true
    ∧ hookValidPerSpec intArgHookSpec boolArgFunc = false := ⟨rfl, rfl⟩

/-- C6 amended: for specs and callables with nonempty parameter lists whose
annotations are classes or absent, HookSpec.validate returns normally with
the boolean that matches parameter names exactly and order-sensitively,
accepts each annotated type when it is the declared class or a subclass of
it (declared Any unconstrained), admits var-args presence only where the
permissiveness flags allow, and checks the return annotation as declared. -/
theorem khimera_hook_validate_iff_amended_signature_match (s : HookSpecData) (f : PyFunc)
    (h1 : s.arg_types ≠ []) (h2 : f.positional ≠ [])
    (h3 : ∀ x ∈ f.positional, x.2 ≠ Ann.noneA ∧ x.2 ≠ Ann.anyA) :
    s.validateFunc f = .ok (hookValidAmended s f) := by
  unfold HookSpecData.validateFunc hookValidAmended
  rw [check_inputs_eq s f h1 h2 h3]
  simp only [Bind.bind, Except.bind]
  cases hi : (decide (s.arg_types.map Prod.fst = f.positional.map Prod.fst)
      && ((s.arg_types.map Prod.snd).zip (f.positional.map Prod.snd)).all
          (fun x => expTypeOk x.1 x.2)
      && (!f.hasVarPositional || s.allow_var_args)
      && (!f.hasVarKeyword || s.allow_var_kwargs)) <;> simp [hi]

/-- Witness for the amended C6 at the swapped-parameters scenario: the spec
declaring name then value rejects the callable declaring value then name,
exactly as the amended admissibility predicate does. -/
theorem khimera_hook_validate_iff_amended_signature_match_witness :
    nameValueHookSpec.validateFunc swappedFunc
      = .ok (hookValidAmended nameValueHookSpec swappedFunc)
    ∧ hookValidAmended nameValueHookSpec swappedFunc = false :=
  ⟨khimera_hook_validate_iff_amended_signature_match nameValueHookSpec swappedFunc
    (by decide) (by decide) (by decide), rfl⟩

/-- C7: after two valid plugins named p1 register under the OVERRIDE
resolver, the second call emits a UserWarning and the registry maps p1 to
the second plugin object, which differs from the first. -/
theorem khimera_register_override_scenario :
    (regAfterFirstP1.register runPluginValidation pluginP1v2).warnings = [.userWarning]
    ∧ assocFind (regAfterFirstP1.register runPluginValidation pluginP1v2).state.plugins "p1"
        = some pluginP1v2
    ∧ pluginP1v2 ≠ pluginP1v1 := by
  refine ⟨rfl, rfl, ?_⟩
  intro heq
  have hv := congrArg Plugin.version heq
  simp [pluginP1v2, pluginP1v1] at hv

/-- C8 counterexample: the claimed command admission fails on the code: a
spec admitting top-level commands but no new groups rejects a command whose
group is None, because the group-membership test also fires on None, while
the spec-worded predicate admits it. -/
theorem khimera_command_validate_top_level_counterexample :
    topLevelOnlyCmdSpec.validateGroup none = false
    ∧ commandValidPerSpec topLevelOnlyCmdSpec none = true := ⟨rfl, rfl⟩

/-- C8 amended: CommandSpec.validate returns True exactly when either the
group is None and both top-level commands and new groups are admitted, or
the group is non-None and belongs to the allowed groups or new groups are
admitted; a None group never counts as a member of the allowed set, so it is
also subject to the new-groups flag. -/
theorem khimera_command_validate_iff_amended_admission (s : CommandSpecData)
    (g : Option String) :
    s.validateGroup g = true ↔
      ((g = none ∧ s.admits_top_level = true ∧ s.admits_new_groups = true)
       ∨ (∃ x, g = some x ∧ (s.groups.contains x = true ∨ s.admits_new_groups = true))) := by
  cases g <;> simp [CommandSpecData.validateGroup]

/-- C9: PredicateDependency.validate returns False without consulting the
predicate whenever some referenced field is entirely absent from the
components mapping of the plugin, and otherwise returns the predicate
applied to one binding per referenced field, each bound to the full
component collection of that field. -/
theorem khimera_predicate_dependency_fail_closed_and_predicate_call (dname : String)
    (flds : List String) (pred : List (String × List Component) → Bool) (p : Plugin) :
    ((∃ f ∈ flds, assocFind p.components f = none) →
      PredicateDependency.validate
        { name := dname, fields := flds, description := none, predicate := pred } p = false)
    ∧ ((∀ f ∈ flds, (assocFind p.components f).isSome) →
      PredicateDependency.validate
        { name := dname, fields := flds, description := none, predicate := pred } p
        = pred (flds.map (fun f => (f, (assocFind p.components f).getD [])))) := by
  constructor
  · rintro ⟨f, hf, hnone⟩
    have hmem : (f, (none : Option (List Component)))
        ∈ flds.map (fun g => (g, assocFind p.components g)) := by
      rw [← hnone]
      exact List.mem_map_of_mem _ hf
    have hany : (flds.map (fun g => (g, assocFind p.components g))).any
        (fun x => x.2.isNone) = true := by
      rw [List.any_eq_true]
      exact ⟨(f, none), hmem, rfl⟩
    simp [PredicateDependency.validate, PredicateDependency.validateOn, hany]
  · intro hall
    have hany : (flds.map (fun g => (g, assocFind p.components g))).any
        (fun x => x.2.isNone) = false := by
      rw [Bool.eq_false_iff]
      intro hx
      rw [List.any_eq_true] at hx
      obtain ⟨x, hxmem, hxn⟩ := hx
      rw [List.mem_map] at hxmem
      obtain ⟨g, hg, rfl⟩ := hxmem
      have hs := hall g hg
      simp [Option.isNone_iff_eq_none] at hxn
      rw [hxn] at hs
      cases hs
    simp [PredicateDependency.validate, PredicateDependency.validateOn, hany,
      List.map_map, Function.comp_def]

/-- Witness for C9 at the hook-and-asset scenario: the instance providing
only the hook field fails the dependency because the asset key is entirely
absent, before the predicate is consulted. -/
theorem khimera_predicate_dependency_fail_closed_and_predicate_call_witness :
    PredicateDependency.validate hookAssetDep pluginHookOnly = false :=
  (khimera_predicate_dependency_fail_closed_and_predicate_call
    "hook_asset" ["hook", "asset"] hookAssetPredicate pluginHookOnly).1
    ⟨"asset", by simp, rfl⟩

/-- C10: across every sequence of register, enable and disable calls, each
per-field pool of the registry only grows (the old pool is a prefix of the
new one); and when a plugin replaces a registered namesake under OVERRIDE,
the pool gains the replacement components while keeping the replaced ones,
and get returns every pooled component stamped with the shared plugin name,
the replaced alongside the replacement. -/
theorem khimera_registry_pool_only_grows_and_override_get_visibility :
    (∀ (vr : Plugin → Except PyError Bool) (r : PluginRegistry) (ops : List RegistryOp)
        (key : String), r.poolOf key <+: (runOps vr r ops).poolOf key)
    ∧ (∀ (vr : Plugin → Except PyError Bool) (r : PluginRegistry) (pb : Plugin) (key : String),
        r.resolver.mode = "OVERRIDE" → vr pb = .ok true →
        containsKey r.plugins pb.name = true → r.enable_by_default = true →
        (pb.components.map Prod.fst).Nodup →
        ((r.register vr pb).state.poolOf key
            = r.poolOf key ++ (assocFind pb.components key).getD [])
        ∧ (∀ c ∈ r.poolOf key, c.plugin = some pb.name →
            c ∈ (r.register vr pb).state.get key none true)
        ∧ (∀ c ∈ (assocFind pb.components key).getD [], c.plugin = some pb.name →
            c ∈ (r.register vr pb).state.get key none true)) := by
  constructor
  · exact runOps_pool_grows
  · intro vr r pb key hmode hv hc he hnd
    rw [register_override_commit vr r pb hmode hv hc]
    have hpool : (r.commit pb [.userWarning]).state.poolOf key
        = r.poolOf key ++ (assocFind pb.components key).getD [] := by
      unfold PluginRegistry.poolOf
      rw [commit_components]
      exact unpackInto_poolLookup_eq _ _ _ hnd
    have hmem : pb.name ∈ (r.commit pb [.userWarning]).state.enabled :=
      commit_enabled_mem r pb _ he
    refine ⟨hpool, ?_, ?_⟩
    · intro c hcp hop
      refine mem_get_of_mem_pool _ _ _ pb.name ?_ hop hmem
      rw [hpool]
      exact List.mem_append_left _ hcp
    · intro c hcp hop
      refine mem_get_of_mem_pool _ _ _ pb.name ?_ hop hmem
      rw [hpool]
      exact List.mem_append_right _ hcp

/-- Witness for C10 at the two command-contributing p1 plugins: after the
override, the cmds pool holds both components and get returns both. -/
theorem khimera_registry_pool_only_grows_and_override_get_visibility_witness :
    regAfterA.poolOf "cmds" = [cmdCompA] ∧
    (regAfterA.register runPluginValidation pluginPB).state.poolOf "cmds"
      = [cmdCompA, cmdCompB] ∧
    cmdCompA ∈ (regAfterA.register runPluginValidation pluginPB).state.get "cmds" none true ∧
    cmdCompB ∈ (regAfterA.register runPluginValidation pluginPB).state.get "cmds" none true := by
  have h := khimera_registry_pool_only_grows_and_override_get_visibility.2
    runPluginValidation regAfterA pluginPB "cmds" rfl rfl rfl rfl (by simp [pluginPB])
  refine ⟨rfl, ?_, ?_, ?_⟩
  · rw [h.1]
    rfl
  · exact h.2.1 cmdCompA (by decide) rfl
  · exact h.2.2 cmdCompB (by decide) rfl
